import Mathlib

/-!
Verification of the lakeFS playground filesystem adapter (`playground/fs.py`).

The definitions below are a shallow embedding of the Python source:

* Python `str` is modelled by `String`, with the handful of Python string
  methods used by the source (`partition`, `endswith`, `lstrip`, `rstrip`,
  slicing) re-implemented on the underlying character list so that they are
  executable and faithful to Python semantics.
* Python `bytes` is modelled by `PyBytes := List Nat` (one entry per byte).
* The lakeFS client (`self._client`) is an external collaborator; its state
  is modelled as explicit function-typed stores passed to each operation,
  and network calls are recorded as explicit `FSEffect` values where a claim
  is about which calls are issued.
* The fsspec base-class helpers used by the source (`_parent`,
  `_strip_protocol`, the `AbstractBufferedFile` flush/close driver and the
  `dircache` dict) are external-library collaborators; they are modelled
  from their documented behaviour (spec sections 4.4 and 4.5): `_parent`
  drops the last `/`-separated segment after protocol stripping, the
  dircache is a map from path strings to listings, and closing a write-mode
  buffered file runs `_initiate_upload` followed by a final `_upload_chunk`.
* The `NamedTemporaryFile("wb")` spool is a buffered binary writer; its
  state is modelled as the pair of the bytes sitting in the writer's
  user-space buffer and the bytes that have actually reached the file on
  disk, because the source reads the file back from disk (by name, with a
  fresh descriptor) before the writer is ever flushed.
-/

/-- Bytes of a Python `bytes` value, one `Nat` (< 256) per byte. -/
abbrev PyBytes := List Nat

/-- The byte string `b"hello"`. -/
def helloBytes : PyBytes := [104, 101, 108, 108, 111]

/-- Python `s.startswith(pre)` (used only for protocol stripping). -/
def pyStartsWith (s pre : String) : Bool := pre.data.isPrefixOf s.data

/-- Python `s.endswith(suffix)`. -/
def endswith (s suffix : String) : Bool := suffix.data.isSuffixOf s.data

/-- Python `s.lstrip(c)` for a single character `c`. -/
def pyLStrip (c : Char) (s : String) : String := ⟨s.data.dropWhile (fun a => a = c)⟩

/-- Python `s.rstrip(c)` for a single character `c`. -/
def pyRStrip (c : Char) (s : String) : String :=
  ⟨(s.data.reverse.dropWhile (fun a => a = c)).reverse⟩

/-- Python `s.partition(sep)` for the one-character separator used by the
source: returns the part before the first occurrence of `c` and the part
after it (Python additionally returns the separator itself, which the
source discards). When `c` does not occur, Python returns `(s, "", "")`,
i.e. the remainder is empty. -/
def partitionChar : List Char → Char → List Char × List Char
  | [], _ => ([], [])
  | a :: rest, c =>
    if a = c then ([], rest)
    else
      let (x, y) := partitionChar rest c
      (a :: x, y)

/-- `_split_path(path)` from fs.py: split a flat path into
`(repo, ref, key)` at the first two `/` separators. -/
def _split_path (path : String) : String × String × String :=
  let (repo, rest) := partitionChar path.data '/'
  let (ref, rest2) := partitionChar rest '/'
  (⟨repo⟩, ⟨ref⟩, ⟨rest2⟩)

/-- `_remove_suffix(path, suffix)` from fs.py:
`path if not path.endswith(suffix) else path[:len(path) - len(suffix)]`. -/
def _remove_suffix (path suffix : String) : String :=
  if endswith path suffix then ⟨path.data.take (path.data.length - suffix.data.length)⟩
  else path

/-- fsspec `AbstractFileSystem._strip_protocol` (external collaborator,
modelled from its behaviour with this class's defaults): remove a leading
`"lakefs://"` scheme if present, strip trailing `/` characters, and return
the result (the class's `root_marker` is the empty string). -/
def stripProtocol (p : String) : String :=
  let q := if pyStartsWith p "lakefs://" then ⟨p.data.drop 9⟩ else p
  pyRStrip '/' q

/-- Characters strictly before the last `'/'` of the list (helper for
`fsParent`, mirroring Python `path.rsplit("/", 1)[0]`). -/
def cutLastSeg (p : String) : String :=
  ⟨((p.data.reverse.dropWhile (fun a => a ≠ '/')).drop 1).reverse⟩

/-- fsspec `AbstractFileSystem._parent` (external collaborator, modelled
from its behaviour with `root_marker = ""`): strip the protocol, then drop
the last `/`-separated segment; a path with no `/` has parent `""`. -/
def fsParent (p : String) : String :=
  let q := stripProtocol p
  if q.data.contains '/' then cutLastSeg q else ""

/-- One raw record of a store listing response, as consumed by
`_object_stat_to_entry` and `_ls` (fields `path`, `path_type`, `checksum`,
`size_bytes`, `mtime` of the lakeFS `ObjectStats` dict). -/
structure ObjectStat where
  path : String
  path_type : String
  checksum : String
  size_bytes : Nat
  mtime : Nat
deriving DecidableEq

/-- The fsspec directory-entry dict produced by `_object_stat_to_entry`.
Fields that are absent from the directory-shaped dict in the source are
modelled as `Option` fields set to `none`. `LastModified` holds the result
of `datetime.datetime.fromtimestamp(mtime, timezone.utc)`, modelled as the
epoch-second value itself (an absolute UTC instant). -/
structure DirEntry where
  ETag : Option String
  Key : String
  name : String
  type : String
  size : Nat
  Size : Nat
  StorageClass : String
  LastModified : Option Nat
deriving DecidableEq

/-- `_object_stat_to_entry(repo, ref, stat)` from fs.py. -/
def _object_stat_to_entry (repo ref : String) (stat : ObjectStat) : DirEntry :=
  let key := repo ++ "/" ++ ref ++ "/" ++ stat.path
  if stat.path_type = "object" then
    { ETag := some stat.checksum
      Key := key
      name := key
      type := "file"
      size := stat.size_bytes
      Size := stat.size_bytes
      StorageClass := "STANDARD"
      LastModified := some stat.mtime }
  else
    { ETag := none
      Key := _remove_suffix key "/"
      name := _remove_suffix key "/"
      type := "directory"
      size := 0
      Size := 0
      StorageClass := "DIRECTORY"
      LastModified := none }

/-- Contents of the object store visible through
`client.objects.get_object`: a map from `(repo, ref, key)` to the object's
bytes, `none` when the object does not exist (a failing fetch). -/
abbrev ObjStore := String → String → String → Option PyBytes

/-- Insert/overwrite one object, modelling the effect of
`client.objects.upload_object(repo, ref, key, content=...)` on the store. -/
def storeInsert (s : ObjStore) (repo ref key : String) (v : PyBytes) : ObjStore :=
  fun r b k => if r = repo ∧ b = ref ∧ k = key then some v else s r b k

/-- Normalize a Python slice index against a list of length `n`:
negative indices count from the end and everything is clamped to `[0, n]`. -/
def pySliceIdx (n : Nat) (i : Int) : Nat :=
  if i < 0 then (max (n + i) 0).toNat else min i.toNat n

/-- Python `data[start:stop]` with optional bounds (full slice semantics,
including negative indices). -/
def pySlice (data : List α) (start stop : Option Int) : List α :=
  let n := data.length
  let s := match start with
    | none => 0
    | some i => pySliceIdx n i
  let e := match stop with
    | none => n
    | some i => pySliceIdx n i
  (data.drop s).take (e - s)

/-- `get_object(path, start, end)` from fs.py: fetch the whole object and
slice it in memory, with `None` bounds meaning "unbounded" and the lower
bound taking precedence; a failing fetch is wrapped into a `ValueError`
carrying the path. Argument `stop` models the Python parameter `end`. -/
def get_object (store : ObjStore) (path : String) (start stop : Option Int) :
    Except String PyBytes :=
  let (repo, ref, key) := _split_path path
  match store repo ref key with
  | none => .error ("Error reading path: " ++ path)
  | some data =>
    .ok <|
      match start, stop with
      | some s, some e => pySlice data (some s) (some e)
      | some s, none => pySlice data (some s) none
      | none, some e => if e ≤ (data.length : Int) then pySlice data none (some e) else data
      | none, none => data

/-- Repository metadata store for `client.repositories.get_repository`:
maps a repository name to its `creation_date` (epoch seconds). -/
abbrev RepoStore := String → Nat

/-- `datetime.date.fromtimestamp(ts)` modelled at day granularity
(UTC): the day index of the epoch-second timestamp. -/
def dateFromTimestamp (ts : Nat) : Nat := ts / 86400

/-- `created(path)` from fs.py: only a bare repository path (empty ref and
empty key after splitting) yields a value; a ref or key segment raises
`NotImplementedError`. -/
def created (repos : RepoStore) (path : String) : Except String Nat :=
  let (repo, ref, key) := _split_path path
  if key ≠ "" then .error "lakeFS objects have no created timestamp"
  else if ref ≠ "" then .error "lakeFS Refs have no created timestamp"
  else .ok (dateFromTimestamp (repos repo))

/-- One network / cache side effect issued by a filesystem operation. -/
inductive FSEffect where
  | uploadObject (repo ref key : String) (content : Option PyBytes)
  | deleteObject (repo ref key : String)
  | deleteObjects (repo ref : String) (keys : List String)
  | makedirs (path : String)
  | invalidateDircache (path : Option String)
deriving DecidableEq

set_option linter.unusedVariables false in
/-- `pipe_file(path, value)` from fs.py, as the list of calls it issues:
the source calls `upload_object(repo, ref, key)` WITHOUT passing `value`
as content (content `none`), then invalidates the parent's cache entry. -/
def pipe_fileEffects (path : String) (value : PyBytes) : List FSEffect :=
  let (repo, ref, key) := _split_path path
  [FSEffect.uploadObject repo ref key none,
   FSEffect.invalidateDircache (some (fsParent path))]

/-- One page returned by `client.objects.list_objects`: the `results`
records plus the `pagination` fields read by `_ls`. -/
structure ListingPage where
  results : List ObjectStat
  has_more : Bool
  next_offset : String
deriving DecidableEq

/-- The listing endpoint of the store client, as a pure map from the call
arguments `(repo, ref, prefix=key, after)` to the returned page (the
`delimiter` argument is the constant `"/"` in the source and is omitted). -/
abbrev ListStore := String → String → String → Option String → ListingPage

/-- The `while True` pagination loop of `_ls` (fs.py lines 66-76), with an
explicit page budget `fuel`: each iteration calls `list_objects` with the
current `after` cursor and appends `results`; the loop exits with the
accumulated records exactly when the store reports `has_more == False`.
The source has no page cap, so a run that exhausts `fuel` pages without
the store reporting an end is returned as `none` ("still looping"). -/
def lsLoopFuel (store : ListStore) (repo ref key : String) :
    Nat → Option String → List ObjectStat → Option (List ObjectStat)
  | 0, _, _ => none
  | fuel + 1, after, records =>
    let current := store repo ref key after
    let records := records ++ current.results
    if current.has_more = false then some records
    else lsLoopFuel store repo ref key fuel (some current.next_offset) records

/-- Result of `_ls`: a detailed listing (list of entry dicts) when
`detail=True`, bare key strings when `detail=False`. -/
inductive LsOutput where
  | detailed (entries : List DirEntry)
  | names (keys : List String)
deriving DecidableEq

/-- `_ls(repo, ref, key, detail)` from fs.py: run the pagination loop,
then, when the accumulated result is exactly one record whose path ends in
`/` and whose type is not `"object"`, re-issue the whole listing for
`key + "/"`; the recursive call in the source is `self._ls(repo, ref,
key + '/')`, which leaves `detail` at its default `True`. Otherwise format
the records according to `detail`. `pageFuel` bounds the pages of each
pagination loop and `recFuel` bounds the re-issue depth (the source bounds
neither; `none` means the budget ran out). -/
def lsModel (store : ListStore) (repo ref : String) (pageFuel : Nat) :
    Nat → String → Bool → Option LsOutput
  | 0, _, _ => none
  | recFuel + 1, key, detail =>
    match lsLoopFuel store repo ref key pageFuel none [] with
    | none => none
    | some records =>
      let out : LsOutput :=
        if detail then .detailed (records.map (_object_stat_to_entry repo ref))
        else .names (records.map (fun d =>
          if d.path_type = "object" then
            _remove_suffix (repo ++ "/" ++ ref ++ "/" ++ d.path) "/"
          else repo ++ "/" ++ ref ++ "/" ++ d.path))
      match records with
      | [r] =>
        if endswith r.path "/" && !(r.path_type == "object") then
          lsModel store repo ref pageFuel recFuel (key ++ "/") true
        else some out
      | _ => some out

/-- The inner generator `chunks(lst, num)` of `rm`, specialized to the one
call site `chunks(path_expand, 1000)`: successive slices
`lst[i:i+1000]`, driven by a structural fuel (one unit per emitted chunk;
`chunks1000` below supplies a provably sufficient budget). -/
def chunksFuel : Nat → List α → List (List α)
  | 0, _ => []
  | _ + 1, [] => []
  | fuel + 1, a :: rest => ((a :: rest).take 1000) :: chunksFuel fuel ((a :: rest).drop 1000)

/-- `chunks(path_expand, 1000)` from `rm`: every emitted chunk is nonempty,
so `l.length` chunks of fuel always suffice. -/
def chunks1000 (l : List α) : List (List α) := chunksFuel l.length l

/-- The chunk-length profile of `chunks1000`, as a function of the input
length alone (helper used to state the 2500-key scenario). -/
def chunkSizes : Nat → Nat → List Nat
  | 0, _ => []
  | fuel + 1, n => if n = 0 then [] else min 1000 n :: chunkSizes fuel (n - 1000)

/-- `rm(path, recursive, maxdepth)` from fs.py for a single string path,
as the list of calls it issues. `expanded` is the result of the
`self.expand_path(...)` call (an fsspec base-class collaborator): the flat
list of paths to delete. The source takes `(repo, ref)` from `path`, strips
each expanded path to its key, issues one `delete_objects` call per
1000-element chunk, and finally invalidates the parent's cache entry. -/
def rmEffects (path : String) (expanded : List String) : List FSEffect :=
  let (repo, ref, _) := _split_path path
  let path_expand := expanded.map (fun file => (_split_path file).2.2)
  (chunks1000 path_expand).map (FSEffect.deleteObjects repo ref) ++
    [FSEffect.invalidateDircache (some (fsParent path))]

/-- The fsspec `dircache` of the filesystem instance: a map from normalized
path strings to cached directory listings. -/
abbrev DirCache := String → Option (List DirEntry)

/-- `dircache.pop(p, None)`: remove the entry for `p`, if any. -/
def cacheErase (c : DirCache) (p : String) : DirCache :=
  fun q => if q = p then none else c q

/-- The `while path:` eviction loop of `invalidate_cache` (fs.py lines
224-226): pop the current path and move to its fsspec parent until the
path becomes empty. Driven by a structural fuel; since `fsParent` strictly
shortens a nonempty path, `p.length + 1` units (supplied by
`invalidate_cache` below) always suffice. -/
def invalidateLoopFuel : Nat → DirCache → String → DirCache
  | 0, c, _ => c
  | fuel + 1, c, p =>
    if p = "" then c
    else invalidateLoopFuel fuel (cacheErase c p) (fsParent p)

/-- `invalidate_cache(path)` from fs.py: `None` clears the whole cache;
otherwise the path is normalized (`_strip_protocol`, then `lstrip("/")`),
its own entry is popped, and the `while` loop evicts it and every
ancestor. -/
def invalidate_cache (c : DirCache) (path : Option String) : DirCache :=
  match path with
  | none => fun _ => none
  | some p =>
    let p := pyLStrip '/' (stripProtocol p)
    invalidateLoopFuel (p.data.length + 1) (cacheErase c p) p

/-- The chain of nonempty iterated fsspec parents of a path, starting from
the path itself after `invalidate_cache`'s normalization (same fuel scheme
as `invalidateLoopFuel`; `ancestorsOf` supplies a sufficient budget). -/
def parentChainFuel : Nat → String → List String
  | 0, _ => []
  | fuel + 1, p => if p = "" then [] else p :: parentChainFuel fuel (fsParent p)

/-- The ancestor directories of a path `P`, as the claim uses the word:
`P`'s parent, its parent, and so on — every nonempty iterated parent,
normalized the way `invalidate_cache` normalizes its argument. -/
def ancestorsOf (path : String) : List String :=
  let q := pyLStrip '/' (stripProtocol (fsParent path))
  parentChainFuel (q.data.length + 1) q

/-- The dircache after `_rm(path)` returns (fs.py line 120):
`invalidate_cache(self._parent(path))`. -/
def _rmCache (c : DirCache) (path : String) : DirCache :=
  invalidate_cache c (some (fsParent path))

/-- The dircache after batch `rm(path, ...)` returns (fs.py line 139). -/
def rmCache (c : DirCache) (path : String) : DirCache :=
  invalidate_cache c (some (fsParent path))

/-- The dircache after `put_file(lpath, rpath)` returns (fs.py line 164). -/
def put_fileCache (c : DirCache) (rpath : String) : DirCache :=
  invalidate_cache c (some (fsParent rpath))

/-- The dircache after `pipe_file(path, value)` returns (fs.py line 215). -/
def pipe_fileCache (c : DirCache) (path : String) : DirCache :=
  invalidate_cache c (some (fsParent path))

/-- The dircache after a writing `touch(path)` returns: closing the
zero-length write handle runs `put_file` (which invalidates the parent),
and `touch` then invalidates the parent again (fs.py line 209). -/
def touchCache (c : DirCache) (path : String) : DirCache :=
  invalidate_cache (invalidate_cache c (some (fsParent path))) (some (fsParent path))

/-- `put_file(lpath, rpath)` from fs.py, over the object store: when the
local path is a directory it only ensures the remote directory exists;
otherwise it uploads the local file's full contents (`localData`) as one
object at the address split from `rpath`. Also returns the calls issued. -/
def put_file (store : ObjStore) (lpathIsDir : Bool) (localData : PyBytes)
    (rpath : String) : ObjStore × List FSEffect :=
  if lpathIsDir then
    (store, [FSEffect.makedirs rpath, FSEffect.invalidateDircache (some (fsParent rpath))])
  else
    let (repo, ref, key) := _split_path rpath
    (storeInsert store repo ref key localData,
     [FSEffect.uploadObject repo ref key (some localData),
      FSEffect.invalidateDircache (some (fsParent rpath))])

/-- The state of the `NamedTemporaryFile("wb")` spool created by
`_initiate_upload`: a buffered binary writer. Bytes passed to `write` sit
in the writer's user-space buffer (`pending`) and reach the file on disk
(`onDisk`) only when the buffer fills (CPython's default buffer is 8192
bytes) or the writer is flushed or closed. -/
structure TempFileState where
  pending : PyBytes
  onDisk : PyBytes
deriving DecidableEq

/-- `self._tempfile.write(data)` on the buffered writer: data that still
fits in the user-space buffer stays there and does not reach the disk; a
write that overflows the buffer flushes through to the disk (modelled
conservatively as a full flush — only the fits-in-buffer branch is used
by the claims). -/
def tempfileWrite (t : TempFileState) (data : PyBytes) : TempFileState :=
  if t.pending.length + data.length ≤ 8192 then
    { pending := t.pending ++ data, onDisk := t.onDisk }
  else
    { pending := [], onDisk := t.onDisk ++ t.pending ++ data }

/-- Writing `bs` through a write-mode `LakeFSBufferedFile` and closing it
(the flush/close driver of `AbstractBufferedFile` is an external
collaborator, modelled from spec section 4.4): `_initiate_upload` creates
a fresh `NamedTemporaryFile("wb")` spool; the final `_upload_chunk`
writes the buffer to the spool's buffered writer when the buffer is
nonempty and then — without flushing that writer — calls
`self.fs.put_file(self._tempfile.name, self.path)`, which opens the
spool's path with a fresh descriptor and uploads what is on disk at that
moment. `self._tempfile.close()`, which would flush, runs only after
`put_file` returns (and deletes the file), so bytes still sitting in the
writer's user-space buffer are never uploaded. -/
def writeAndClose (store : ObjStore) (path : String) (bs : PyBytes) :
    ObjStore × List FSEffect :=
  let tempfile : TempFileState := { pending := [], onDisk := [] }
  let data := bs
  let tempfile := if data = [] then tempfile else tempfileWrite tempfile data
  put_file store false tempfile.onDisk path

/-- `LakeFSBufferedFile._fetch_range(start, end)` from fs.py for a
read-mode handle whose known size is `size`: clamp `start` up to `0` and
`end` down to `size`; an empty clamped range, or one starting at or past
`size`, yields `b""` with no store call; otherwise the clamped range is
fetched through `fs.get_object`. The boolean records whether the store was
contacted. `stop` models the Python parameter `end`. -/
def _fetch_range (store : ObjStore) (path : String) (size : Nat)
    (start stop : Int) : Except String PyBytes × Bool :=
  let start := max start 0
  let stop := min (size : Int) stop
  if start ≥ stop ∨ start ≥ (size : Int) then (.ok [], false)
  else (get_object store path (some start) (some stop), true)

/-- A store whose listing endpoint reports `has_more = True` on every call
and never advances its cursor (`next_offset` is the constant `"stuck"`):
the protocol violation described by the spec for claim C3. -/
def stuckListStore : ListStore :=
  fun _ _ _ _ => { results := [], has_more := true, next_offset := "stuck" }

/-- A one-page store: a single listing call returns two object records and
reports no further pages (used to witness the loop's exit condition). -/
def onePageListStore : ListStore :=
  fun _ _ _ _ =>
    { results := [⟨"a.txt", "object", "c1", 1, 10⟩, ⟨"b.txt", "object", "c2", 2, 20⟩]
      has_more := false
      next_offset := "" }

/-- A concrete listing store for claim C2: the prefix `"dir"` yields
exactly one directory-marker record `"dir/"`, and the prefix `"dir/"`
yields one object record `"dir/a"`. -/
def dirMarkerListStore : ListStore :=
  fun _ _ key _ =>
    if key = "dir" then
      { results := [⟨"dir/", "common_prefix", "", 0, 0⟩], has_more := false, next_offset := "" }
    else if key = "dir/" then
      { results := [⟨"dir/a", "object", "abc", 3, 100⟩], has_more := false, next_offset := "" }
    else
      { results := [], has_more := false, next_offset := "" }

theorem dropWhile_ne_nil_of_mem_not {α} {q : α → Bool} {l : List α} {x : α}
    (hx : x ∈ l) (hq : q x = false) : l.dropWhile q ≠ [] := by
  induction l with
  | nil => cases hx
  | cons a t ih =>
    rw [List.dropWhile_cons]
    rcases List.mem_cons.mp hx with h | h
    · subst h
      rw [hq]
      simp
    · by_cases hqa : q a
      · rw [hqa]
        simp only [if_true]
        exact ih h
      · simp [hqa]

theorem stripProtocol_length_le (p : String) :
    (stripProtocol p).data.length ≤ p.data.length := by
  unfold stripProtocol pyRStrip
  dsimp only
  split
  · simp only [List.length_reverse]
    exact le_trans (List.dropWhile_sublist _).length_le (by simp)
  · simp only [List.length_reverse]
    exact le_trans (List.dropWhile_sublist _).length_le (by simp)

theorem string_data_ne_nil {p : String} (hp : p ≠ "") : p.data ≠ [] := by
  intro h
  apply hp
  cases p
  simp only at h
  subst h
  rfl

/-- The fsspec parent of a nonempty path is strictly shorter, so the
`p.length + 1` fuel supplied to `invalidateLoopFuel` and
`parentChainFuel` always covers the whole parent chain. -/
theorem fsParent_length_lt {p : String} (hp : p ≠ "") :
    (fsParent p).data.length < p.data.length := by
  have hlen : 0 < p.data.length :=
    List.length_pos.mpr (string_data_ne_nil hp)
  unfold fsParent
  dsimp only
  split
  · next hcont =>
    unfold cutLastSeg
    simp only [List.length_reverse, List.length_drop]
    have hmem : '/' ∈ (stripProtocol p).data.reverse := by
      rw [List.mem_reverse]
      exact List.elem_iff.mp hcont
    have hne : (stripProtocol p).data.reverse.dropWhile (fun a => a ≠ '/') ≠ [] :=
      dropWhile_ne_nil_of_mem_not hmem (by simp)
    have h1 : 1 ≤ ((stripProtocol p).data.reverse.dropWhile (fun a => a ≠ '/')).length :=
      List.length_pos.mpr hne
    have h2 : ((stripProtocol p).data.reverse.dropWhile (fun a => a ≠ '/')).length
        ≤ (stripProtocol p).data.length := by
      calc ((stripProtocol p).data.reverse.dropWhile (fun a => a ≠ '/')).length
          ≤ (stripProtocol p).data.reverse.length := (List.dropWhile_sublist _).length_le
        _ = (stripProtocol p).data.length := List.length_reverse _
    have h3 := stripProtocol_length_le p
    omega
  · simpa using hlen

/-- Evicting entries never resurrects an absent one. -/
theorem invalidateLoopFuel_preserves_none :
    ∀ (fuel : Nat) (c : DirCache) (p a : String),
      c a = none → invalidateLoopFuel fuel c p a = none := by
  intro fuel
  induction fuel with
  | zero => intro c p a h; exact h
  | succ g ih =>
    intro c p a h
    rw [invalidateLoopFuel]
    split
    · exact h
    · apply ih
      unfold cacheErase
      split
      · rfl
      · exact h

/-- The eviction loop removes every entry on the parent chain of its
starting path, given enough fuel (which `invalidate_cache` supplies). -/
theorem invalidateLoopFuel_chain_none :
    ∀ (fuel : Nat) (c : DirCache) (q a : String),
      q.data.length < fuel → a ∈ parentChainFuel fuel q →
      invalidateLoopFuel fuel c q a = none := by
  intro fuel
  induction fuel with
  | zero => intro c q a h hmem; cases hmem
  | succ g ih =>
    intro c q a hfuel hmem
    rw [invalidateLoopFuel]
    rw [parentChainFuel] at hmem
    split
    · next hq => rw [hq] at hmem; cases hmem
    · next hq =>
      rcases List.mem_cons.mp (by simpa [hq] using hmem) with h | h
      · subst h
        apply invalidateLoopFuel_preserves_none
        unfold cacheErase
        simp
      · apply ih _ _ _ _ h
        have := fsParent_length_lt hq
        omega

/-- After `invalidate_cache(parent)` runs, no entry on the parent chain of
the normalized argument survives. -/
theorem invalidate_cache_evicts_chain (c : DirCache) (p a : String)
    (ha : a ∈ parentChainFuel ((pyLStrip '/' (stripProtocol p)).data.length + 1)
            (pyLStrip '/' (stripProtocol p))) :
    invalidate_cache c (some p) a = none := by
  unfold invalidate_cache
  apply invalidateLoopFuel_chain_none _ _ _ _ (by omega) ha

/-- Concatenating the chunks of `chunksFuel` restores the input list, as
long as the fuel covers the input's length. -/
theorem chunksFuel_flatten {α} :
    ∀ (fuel : Nat) (l : List α), l.length ≤ fuel →
      (chunksFuel fuel l).flatten = l := by
  intro fuel
  induction fuel with
  | zero =>
    intro l h
    have : l = [] := List.length_eq_zero.mp (Nat.le_zero.mp h)
    subst this
    rfl
  | succ g ih =>
    intro l h
    match l with
    | [] => rfl
    | a :: rest =>
      have hlen : ((a :: rest).drop 1000).length ≤ g := by
        simp only [List.length_drop, List.length_cons] at h ⊢
        omega
      rw [chunksFuel]
      rw [List.flatten_cons]
      rw [ih ((a :: rest).drop 1000) hlen]
      exact List.take_append_drop 1000 (a :: rest)

/-- Every chunk emitted by `chunksFuel` has at most 1000 elements. -/
theorem chunksFuel_le_1000 {α} :
    ∀ (fuel : Nat) (l : List α) (ch : List α), ch ∈ chunksFuel fuel l →
      ch.length ≤ 1000 := by
  intro fuel
  induction fuel with
  | zero => intro l ch h; cases h
  | succ g ih =>
    intro l ch h
    match l with
    | [] => cases h
    | a :: rest =>
      rw [chunksFuel] at h
      rcases List.mem_cons.mp h with h | h
      · subst h
        simp
      · exact ih _ _ h

/-- The chunk-length profile of `chunksFuel` depends only on the input's
length. -/
theorem chunksFuel_map_length {α} :
    ∀ (fuel : Nat) (l : List α), l.length ≤ fuel →
      (chunksFuel fuel l).map List.length = chunkSizes fuel l.length := by
  intro fuel
  induction fuel with
  | zero =>
    intro l h
    have : l = [] := List.length_eq_zero.mp (Nat.le_zero.mp h)
    subst this
    rfl
  | succ g ih =>
    intro l h
    match l with
    | [] => rfl
    | a :: rest =>
      have hlen : ((a :: rest).drop 1000).length ≤ g := by
        simp only [List.length_drop, List.length_cons] at h ⊢
        omega
      rw [chunksFuel, List.map_cons, ih ((a :: rest).drop 1000) hlen, chunkSizes]
      simp only [List.length_take, List.length_drop, List.length_cons]
      split
      · next h0 => exact absurd h0 (Nat.succ_ne_zero _)
      · next h0 =>
        congr 1

/-- A store that reports `has_more = True` on every call for a given
`(repo, ref, key)` keeps the `_ls` pagination loop running past any page
budget: the loop has no cap and no failure path, so it never finishes. -/
theorem lsLoopFuel_allMore_none (store : ListStore) (repo ref key : String)
    (hstore : ∀ a, (store repo ref key a).has_more = true) :
    ∀ (fuel : Nat) (after : Option String) (acc : List ObjectStat),
      lsLoopFuel store repo ref key fuel after acc = none := by
  intro fuel
  induction fuel with
  | zero => intro after acc; rfl
  | succ g ih =>
    intro after acc
    rw [lsLoopFuel]
    rw [hstore after]
    simp only [Bool.true_eq_false, if_false]
    exact ih _ _

/-- C1 (code bug): `pipe_file(path, value)` is documented to "Set the bytes
of given file", and the claim says it uploads exactly the given in-memory
byte sequence; but the source calls `upload_object(repo, ref, key)` without
passing `value`, so the one upload call it issues carries no content. At
the concrete input `pipe_file("repo/main/a.txt", b"hello")` the call trace
is one content-free upload plus the parent invalidation, and no upload
carrying `b"hello"` ever occurs. -/
theorem pipe_file_never_uploads_value :
    pipe_fileEffects "repo/main/a.txt" helloBytes
      = [FSEffect.uploadObject "repo" "main" "a.txt" none,
         FSEffect.invalidateDircache (some "repo/main")]
    ∧ FSEffect.uploadObject "repo" "main" "a.txt" (some helloBytes)
        ∉ pipe_fileEffects "repo/main/a.txt" helloBytes :=
  ⟨rfl, by decide⟩

/-- C2 (code bug): when a prefix listing accumulates exactly one
directory-marker record, `_ls` re-issues the listing for `key + "/"` but
drops the caller's `detail` flag (the recursive call `self._ls(repo, ref,
key + '/')` leaves `detail` at its default `True`). With the concrete
store `dirMarkerListStore` and `detail=False`, listing `"dir"` returns
detailed entry dicts while listing `"dir/"` returns the bare key strings
the caller asked for, so the two results differ. -/
theorem ls_degenerate_recursion_drops_detail :
    lsModel dirMarkerListStore "repo" "main" 2 2 "dir" false
      = some (.detailed [⟨some "abc", "repo/main/dir/a", "repo/main/dir/a",
          "file", 3, 3, "STANDARD", some 100⟩])
    ∧ lsModel dirMarkerListStore "repo" "main" 2 2 "dir/" false
      = some (.names ["repo/main/dir/a"])
    ∧ lsModel dirMarkerListStore "repo" "main" 2 2 "dir" false
      ≠ lsModel dirMarkerListStore "repo" "main" 2 2 "dir/" false :=
  ⟨rfl, rfl, by decide⟩

/-- C3 counterexample: against a store whose pagination cursor never
advances (`stuckListStore` always answers `has_more = True` with the same
`next_offset`), the `_ls` pagination loop is still running after 5000
pages — far past any plausible sanity threshold — rather than having
stopped or failed loudly, refuting the claim that the engine bounds its
page count and fails loudly on a non-advancing cursor. -/
theorem ls_loop_no_page_cap_counterexample :
    lsLoopFuel stuckListStore "repo" "main" "data/" 5000 none [] = none :=
  lsLoopFuel_allMore_none stuckListStore "repo" "main" "data/" (fun _ => rfl) 5000 none []

/-- C3 (amended): the pagination loop of `_ls` stops, with the accumulated
records, as soon as the store reports no further pages; but when the store
reports more pages on every call — as a store bug returning a
non-advancing cursor causes — the loop never terminates and never fails:
the source has no page cap and no loud-failure path. -/
theorem ls_loop_pagination_behaviour (store : ListStore) (repo ref key : String) :
    ((∀ a, (store repo ref key a).has_more = true) →
      ∀ (fuel : Nat) (after : Option String) (acc : List ObjectStat),
        lsLoopFuel store repo ref key fuel after acc = none)
    ∧ (∀ (after : Option String) (acc : List ObjectStat) (fuel : Nat),
        (store repo ref key after).has_more = false →
        lsLoopFuel store repo ref key (fuel + 1) after acc
          = some (acc ++ (store repo ref key after).results)) := by
  constructor
  · exact lsLoopFuel_allMore_none store repo ref key
  · intro after acc fuel h
    rw [lsLoopFuel]
    rw [h]
    simp

/-- C3 witness: the amended theorem applied to the non-advancing store
(7 pages attempted, still looping) and to a store whose first page already
reports the end (loop returns that page's records at once). -/
theorem ls_loop_pagination_behaviour_witness :
    lsLoopFuel stuckListStore "repo" "main" "data/" 7 none [] = none
    ∧ lsLoopFuel onePageListStore "repo" "main" "data/" 1 none []
      = some [⟨"a.txt", "object", "c1", 1, 10⟩, ⟨"b.txt", "object", "c2", 2, 20⟩] :=
  ⟨(ls_loop_pagination_behaviour stuckListStore "repo" "main" "data/").1 (fun _ => rfl) 7 none [],
   (ls_loop_pagination_behaviour onePageListStore "repo" "main" "data/").2 none [] 0 rfl⟩

/-- C4: after any of the mutating operations on a path `P` —
single delete (`_rm`), batch delete (`rm`), `put_file`, a writing `touch`,
or `pipe_file` — returns, the directory cache holds no entry for `P`'s
parent nor for any further ancestor directory of `P` up to the root: each
operation ends with `invalidate_cache(self._parent(path))`, whose eviction
loop walks the whole parent chain. -/
theorem mutations_evict_ancestor_cache (c : DirCache) (P a : String)
    (ha : a ∈ ancestorsOf P) :
    _rmCache c P a = none ∧ rmCache c P a = none ∧ put_fileCache c P a = none
    ∧ touchCache c P a = none ∧ pipe_fileCache c P a = none := by
  have key : ∀ c' : DirCache, invalidate_cache c' (some (fsParent P)) a = none :=
    fun c' => invalidate_cache_evicts_chain c' (fsParent P) a ha
  exact ⟨key c, key c, key c, key _, key c⟩

/-- C4 witness: with every path cached, mutating
`"repo/main/a/b.txt"` leaves no cache entry for the ancestor
`"repo/main"`. -/
theorem mutations_evict_ancestor_cache_witness :
    ("repo/main" ∈ ancestorsOf "repo/main/a/b.txt")
    ∧ (_rmCache (fun _ => some []) "repo/main/a/b.txt" "repo/main" = none
       ∧ rmCache (fun _ => some []) "repo/main/a/b.txt" "repo/main" = none
       ∧ put_fileCache (fun _ => some []) "repo/main/a/b.txt" "repo/main" = none
       ∧ touchCache (fun _ => some []) "repo/main/a/b.txt" "repo/main" = none
       ∧ pipe_fileCache (fun _ => some []) "repo/main/a/b.txt" "repo/main" = none) :=
  ⟨by decide,
   mutations_evict_ancestor_cache (fun _ => some []) "repo/main/a/b.txt" "repo/main" (by decide)⟩

/-- C5 (code bug): `_upload_chunk` (fs.py lines 242-248) writes the buffer
to the `NamedTemporaryFile` spool and immediately hands the spool's NAME
to `put_file`, which re-opens that path and reads it from disk; nothing
has flushed the spool's buffered writer at that point (`close`, which
flushes, runs only after the upload, and then deletes the file). For the
five-byte write `b"hello"` the bytes are still in the writer's user-space
buffer, so the single upload carries `b""`: the committed object is
empty, not `b"hello"`, and a read-back through `_fetch_range(0, 5)` on a
read-mode handle sized by the committed object (size 0) returns `b""`. -/
theorem write_close_uploads_unflushed_spool :
    (writeAndClose (fun _ _ _ => none) "repo/main/x.txt" helloBytes).2
      = [FSEffect.uploadObject "repo" "main" "x.txt" (some []),
         FSEffect.invalidateDircache (some "repo/main")]
    ∧ (writeAndClose (fun _ _ _ => none) "repo/main/x.txt" helloBytes).1
        "repo" "main" "x.txt" = some []
    ∧ (writeAndClose (fun _ _ _ => none) "repo/main/x.txt" helloBytes).1
        "repo" "main" "x.txt" ≠ some helloBytes
    ∧ _fetch_range (writeAndClose (fun _ _ _ => none) "repo/main/x.txt" helloBytes).1
        "repo/main/x.txt" 0 0 5 = (.ok [], false) :=
  ⟨rfl, by decide, by decide, rfl⟩

/-- C6: for a batch delete, `rm` splits the expanded keys into consecutive
chunks of at most 1000, issues exactly one `delete_objects` call per chunk
(in order, jointly covering exactly the expanded keys), invalidates the
parent's cache entry exactly once, after all delete calls; and 2500
expanded keys produce exactly three calls of sizes 1000, 1000, 500. -/
theorem rm_batches_deletes_in_chunks (path : String) (expanded : List String) :
    rmEffects path expanded
      = (chunks1000 (expanded.map (fun file => (_split_path file).2.2))).map
          (FSEffect.deleteObjects (_split_path path).1 (_split_path path).2.1)
        ++ [FSEffect.invalidateDircache (some (fsParent path))]
    ∧ (chunks1000 (expanded.map (fun file => (_split_path file).2.2))).flatten
      = expanded.map (fun file => (_split_path file).2.2)
    ∧ (∀ ch ∈ chunks1000 (expanded.map (fun file => (_split_path file).2.2)),
        ch.length ≤ 1000)
    ∧ ((expanded.map (fun file => (_split_path file).2.2)).length = 2500 →
        (chunks1000 (expanded.map (fun file => (_split_path file).2.2))).map List.length
          = [1000, 1000, 500]) := by
  refine ⟨?_, ?_, ?_, ?_⟩
  · rcases hsplit : _split_path path with ⟨r, b, k⟩
    simp [rmEffects, hsplit]
  · exact chunksFuel_flatten _ _ le_rfl
  · exact fun ch hch => chunksFuel_le_1000 _ _ ch hch
  · intro h2500
    unfold chunks1000
    rw [chunksFuel_map_length _ _ le_rfl, h2500]
    rfl

/-- C6 witness: deleting a directory that expands to 2500 keys issues the
three chunked calls of sizes 1000, 1000 and 500. -/
theorem rm_batches_deletes_in_chunks_witness :
    ((List.replicate 2500 "repo/main/dir/x").map
        (fun file => (_split_path file).2.2)).length = 2500
    ∧ (chunks1000 ((List.replicate 2500 "repo/main/dir/x").map
          (fun file => (_split_path file).2.2))).map List.length
      = [1000, 1000, 500] :=
  ⟨by simp only [List.length_map, List.length_replicate],
   (rm_batches_deletes_in_chunks "repo/main/dir" (List.replicate 2500 "repo/main/dir/x")).2.2.2
     (by simp only [List.length_map, List.length_replicate])⟩

/-- C7: `created(path)` returns the store-reported repository creation
timestamp (as the calendar date `datetime.date.fromtimestamp` derives from
it) exactly when the split path has an empty ref and an empty key; any
path with a key segment or a ref segment raises `NotImplementedError`
instead of returning a value. -/
theorem created_requires_bare_repo_path (repos : RepoStore)
    (path repo ref key : String) (hsplit : _split_path path = (repo, ref, key)) :
    (key = "" → ref = "" →
      created repos path = .ok (dateFromTimestamp (repos repo)))
    ∧ (key ≠ "" →
      created repos path = .error "lakeFS objects have no created timestamp")
    ∧ (key = "" → ref ≠ "" →
      created repos path = .error "lakeFS Refs have no created timestamp") := by
  refine ⟨?_, ?_, ?_⟩
  · intro hk hr
    rw [created, hsplit]
    simp [hk, hr]
  · intro hk
    rw [created, hsplit]
    simp [hk]
  · intro hk hr
    rw [created, hsplit]
    simp [hk, hr]

/-- C7 witness: with a store reporting creation at epoch second
1700000000, `created("myrepo")` returns day 19675 while paths carrying a
ref or a key raise. -/
theorem created_requires_bare_repo_path_witness :
    created (fun _ => 1700000000) "myrepo" = .ok 19675
    ∧ created (fun _ => 1700000000) "myrepo/main/foo.txt"
      = .error "lakeFS objects have no created timestamp"
    ∧ created (fun _ => 1700000000) "myrepo/main"
      = .error "lakeFS Refs have no created timestamp" :=
  ⟨(created_requires_bare_repo_path (fun _ => 1700000000) "myrepo" "myrepo" "" "" rfl).1
      rfl rfl,
   (created_requires_bare_repo_path (fun _ => 1700000000) "myrepo/main/foo.txt"
      "myrepo" "main" "foo.txt" rfl).2.1 (by decide),
   (created_requires_bare_repo_path (fun _ => 1700000000) "myrepo/main"
      "myrepo" "main" "" rfl).2.2 rfl (by decide)⟩

/-- C8: `_fetch_range` on a read handle of known `size` returns the empty
byte sequence, without contacting the store, whenever `start >= size`
(for any `end`), and more generally whenever the clamped range
`[max(start, 0), min(size, end))` is empty. -/
theorem fetch_range_empty_without_store (store : ObjStore) (path : String)
    (size : Nat) (start stop : Int) :
    ((size : Int) ≤ start →
      _fetch_range store path size start stop = (.ok [], false))
    ∧ (min (size : Int) stop ≤ max start 0 →
      _fetch_range store path size start stop = (.ok [], false)) := by
  constructor
  · intro h
    rw [_fetch_range]
    exact if_pos (Or.inr (le_trans h (le_max_left start 0)))
  · intro h
    rw [_fetch_range]
    exact if_pos (Or.inl h)

/-- C8 witness: on a three-byte object, `start = 5 >= size = 3` returns
empty for `end = 99`, and the clamped-empty range `start = 2, end = 1`
returns empty, both without a store call. -/
theorem fetch_range_empty_without_store_witness :
    _fetch_range (fun _ _ _ => some [1, 2, 3]) "r/m/k" 3 5 99 = (.ok [], false)
    ∧ _fetch_range (fun _ _ _ => some [1, 2, 3]) "r/m/k" 3 2 1 = (.ok [], false) :=
  ⟨(fetch_range_empty_without_store (fun _ _ _ => some [1, 2, 3]) "r/m/k" 3 5 99).1
      (by decide),
   (fetch_range_empty_without_store (fun _ _ _ => some [1, 2, 3]) "r/m/k" 3 2 1).2
      (by decide)⟩

/-- C9: the directory-entry mapper is a pure function of
`(repo, ref, stat)`: a record of path type `"object"` maps to a file entry
keyed and named `repo/ref/path` carrying the record's checksum (ETag),
its size (twice, as `size` and `Size`), and its mtime as an absolute UTC
timestamp; any other record maps to a directory entry keyed and named
`repo/ref/path` with one trailing `/` stripped, with size 0, no checksum
and no last-modified value. -/
theorem object_stat_to_entry_shape (repo ref : String) (stat : ObjectStat) :
    (stat.path_type = "object" →
      _object_stat_to_entry repo ref stat
        = ⟨some stat.checksum,
           repo ++ "/" ++ ref ++ "/" ++ stat.path,
           repo ++ "/" ++ ref ++ "/" ++ stat.path,
           "file", stat.size_bytes, stat.size_bytes, "STANDARD",
           some stat.mtime⟩)
    ∧ (stat.path_type ≠ "object" →
      _object_stat_to_entry repo ref stat
        = ⟨none,
           _remove_suffix (repo ++ "/" ++ ref ++ "/" ++ stat.path) "/",
           _remove_suffix (repo ++ "/" ++ ref ++ "/" ++ stat.path) "/",
           "directory", 0, 0, "DIRECTORY", none⟩) := by
  constructor
  · intro h
    rw [_object_stat_to_entry]
    simp [h]
  · intro h
    rw [_object_stat_to_entry]
    simp [h]

/-- C9 witness: an object record becomes a file entry with checksum, size
and UTC mtime; a common-prefix record `"dir/"` becomes a directory entry
keyed `repo/main/dir` with size 0 and no checksum or mtime. -/
theorem object_stat_to_entry_shape_witness :
    (⟨"dir/a", "object", "abc", 3, 100⟩ : ObjectStat).path_type = "object"
    ∧ _object_stat_to_entry "repo" "main" ⟨"dir/a", "object", "abc", 3, 100⟩
      = ⟨some "abc", "repo/main/dir/a", "repo/main/dir/a", "file", 3, 3,
         "STANDARD", some 100⟩
    ∧ _object_stat_to_entry "repo" "main" ⟨"dir/", "common_prefix", "", 0, 0⟩
      = ⟨none, "repo/main/dir", "repo/main/dir", "directory", 0, 0,
         "DIRECTORY", none⟩ :=
  ⟨rfl,
   by
    rw [(object_stat_to_entry_shape "repo" "main" ⟨"dir/a", "object", "abc", 3, 100⟩).1 rfl]
    rfl,
   by
    rw [(object_stat_to_entry_shape "repo" "main" ⟨"dir/", "common_prefix", "", 0, 0⟩).2
      (by decide)]
    rfl⟩

/-- Auxiliary fact for C10: a Python slice `data[:e]` with a natural-number
bound `e ≤ len(data)` is the first `e` elements. -/
theorem pySlice_none_nat_le {α} (data : List α) (e : Nat) (h : e ≤ data.length) :
    pySlice data none (some (e : Int)) = data.take e := by
  rw [pySlice]
  simp only [pySliceIdx]
  rw [if_neg (by omega)]
  simp [Int.toNat_ofNat, Nat.min_eq_left h]

/-- C10: when the object fetch behind `get_object(path, None, end)`
succeeds with `n` bytes, an `end` beyond `n` returns the entire object
unchanged (no error, no truncation), an `end <= n` returns exactly the
first `end` bytes, and `start = None, end = None` returns the whole
object. -/
theorem get_object_end_bound_behaviour (store : ObjStore) (path : String)
    (data : PyBytes)
    (hfetch : store (_split_path path).1 (_split_path path).2.1
      (_split_path path).2.2 = some data) :
    (∀ e : Nat, ((data.length : Int) < (e : Int) →
        get_object store path none (some (e : Int)) = .ok data)
      ∧ ((e : Int) ≤ (data.length : Int) →
        get_object store path none (some (e : Int)) = .ok (data.take e)))
    ∧ get_object store path none none = .ok data := by
  rcases hsplit : _split_path path with ⟨r, b, k⟩
  rw [hsplit] at hfetch
  constructor
  · intro e
    constructor
    · intro h
      rw [get_object, hsplit]
      dsimp only
      rw [hfetch]
      dsimp only
      rw [if_neg (by omega)]
    · intro h
      rw [get_object, hsplit]
      dsimp only
      rw [hfetch]
      dsimp only
      rw [if_pos h]
      rw [pySlice_none_nat_le data e (by exact_mod_cast h)]
  · rw [get_object, hsplit]
    dsimp only
    rw [hfetch]

/-- C10 witness: on a five-byte object, `end = 99` returns all five bytes,
`end = 3` returns the first three, and no bounds return everything. -/
theorem get_object_end_bound_behaviour_witness :
    ((fun _ _ _ => some [1, 2, 3, 4, 5]) : ObjStore)
        (_split_path "r/m/k").1 (_split_path "r/m/k").2.1 (_split_path "r/m/k").2.2
      = some [1, 2, 3, 4, 5]
    ∧ get_object (fun _ _ _ => some [1, 2, 3, 4, 5]) "r/m/k" none (some 99)
      = .ok [1, 2, 3, 4, 5]
    ∧ get_object (fun _ _ _ => some [1, 2, 3, 4, 5]) "r/m/k" none (some 3)
      = .ok [1, 2, 3]
    ∧ get_object (fun _ _ _ => some [1, 2, 3, 4, 5]) "r/m/k" none none
      = .ok [1, 2, 3, 4, 5] :=
  ⟨rfl,
   ((get_object_end_bound_behaviour (fun _ _ _ => some [1, 2, 3, 4, 5]) "r/m/k"
      [1, 2, 3, 4, 5] rfl).1 99).1 (by decide),
   ((get_object_end_bound_behaviour (fun _ _ _ => some [1, 2, 3, 4, 5]) "r/m/k"
      [1, 2, 3, 4, 5] rfl).1 3).2 (by decide),
   (get_object_end_bound_behaviour (fun _ _ _ => some [1, 2, 3, 4, 5]) "r/m/k"
      [1, 2, 3, 4, 5] rfl).2⟩
